import Mathlib

/-!
Verification of `av2/torch/dataloaders/utils.py` (juyebshin/av2-api).

Shallow embedding of the module's data model and operations:
  * polars `Series` / `DataFrame` columns as lists of scalars with a declared
    scalar kind;
  * the dataclass containers `Annotations` and `Lidar`, whose fields may hold a
    torch tensor, a Python tuple, or an unconverted polars series (field values
    are whatever `from_dataframe` assigned — Python does not enforce the
    dataclass annotations);
  * the table-to-container adapters `Annotations.from_dataframe` and
    `Lidar.from_dataframe` (keyword construction errors included);
  * the container-to-array exporters `Annotations.as_tensor` / `Lidar.as_tensor`
    with the YAW orientation-mode ordering rewrite, dynamic attribute dispatch
    and `torch.stack(fields, dim=-1)` semantics;
  * the pose lookup `query_SE3` over a poses table.

Numeric scalars are embedded as exact rationals: every operation in the source
moves values around without arithmetic, so exact values model the tensors
faithfully.  The collaborators `quat_to_yaw` and `quat_to_mat` and the rigid
transform `SE3` live outside this file's source; they are modelled from the
specification as abstract row-wise functions / a rotation-translation pair.
-/

/-- A scalar stored in a column or a tensor: a (rational-embedded) number or a
piece of text. -/
inductive Scalar
  | num (v : Rat)
  | str (s : String)
  deriving DecidableEq, Repr, Inhabited

/-- Declared scalar kind of a polars column (the dtypes the adapters inspect,
plus representatives of the remaining kinds). -/
inductive DType
  | float32
  | float64
  | int32
  | int64
  | utf8
  deriving DecidableEq, Repr

/-- A polars `Series`: a declared scalar kind together with its values in
order. -/
structure Series where
  dtype : DType
  values : List Scalar
  deriving DecidableEq, Repr

/-- A polars `DataFrame`: ordered named columns (`to_dict` preserves column
order; polars enforces unique column names, assumed via `Nodup` hypotheses
where needed). -/
structure DataFrame where
  cols : List (String × Series)
  deriving DecidableEq, Repr

/-- Look up a column by name (first match, as in a Python dict built from
unique keys). -/
def DataFrame.col? (df : DataFrame) (n : String) : Option Series :=
  df.cols.lookup n

/-- A value held by a container field after `from_dataframe`: a torch tensor
(`torch.as_tensor(field.to_numpy(writable=True))`), a Python tuple
(`tuple(field.to_list())`), or an unconverted polars series (the `Lidar`
adapter's else-branch leaves the series in place). -/
inductive Cell
  | tensor (vs : List Scalar)
  | tup (vs : List Scalar)
  | series (s : Series)
  deriving DecidableEq, Repr

/-- The dtypes `Annotations.from_dataframe` converts to tensors:
`(pl.Float32, pl.Float64, pl.Int32)`. -/
def annNumericKinds : List DType := [.float32, .float64, .int32]

/-- The dtypes `Lidar.from_dataframe` converts to tensors:
`(pl.Float32, pl.Int32)`. -/
def lidarNumericKinds : List DType := [.float32, .int32]

/-- Column conversion performed by `Annotations.from_dataframe`: numeric kinds
become tensors of the same values in order, all other kinds become tuples of
the values in order. -/
def annConvert (s : Series) : Cell :=
  if annNumericKinds.contains s.dtype then .tensor s.values else .tup s.values

/-- Column conversion performed by `Lidar.from_dataframe`: `Float32`/`Int32`
become tensors, every other column is left as the original series. -/
def lidarConvert (s : Series) : Cell :=
  if lidarNumericKinds.contains s.dtype then .tensor s.values else .series s

/-- Error raised by `cls(**columns)` when the keyword set does not match the
dataclass fields. -/
inductive ConstructError
  | unexpectedKeyword (n : String)
  | missingArgument (n : String)
  deriving DecidableEq, Repr

/-- The `Annotations` dataclass.  Each stored field holds whatever
`from_dataframe` (or a direct constructor call) assigned. -/
structure Annotations where
  tx_m : Cell
  ty_m : Cell
  tz_m : Cell
  length_m : Cell
  width_m : Cell
  height_m : Cell
  qw : Cell
  qx : Cell
  qy : Cell
  qz : Cell
  vx_m : Cell
  vy_m : Cell
  vz_m : Cell
  timestamp_ns : Cell
  num_interior_pts : Cell
  category : Cell
  track_uuid : Cell
  deriving DecidableEq, Repr

/-- Declared field names of `Annotations`, in dataclass order. -/
def Annotations.fieldNames : List String :=
  ["tx_m", "ty_m", "tz_m", "length_m", "width_m", "height_m",
   "qw", "qx", "qy", "qz", "vx_m", "vy_m", "vz_m",
   "timestamp_ns", "num_interior_pts", "category", "track_uuid"]

/-- The numeric (tensor-annotated) field names of `Annotations`. -/
def Annotations.numericFieldNames : List String :=
  ["tx_m", "ty_m", "tz_m", "length_m", "width_m", "height_m",
   "qw", "qx", "qy", "qz", "vx_m", "vy_m", "vz_m",
   "timestamp_ns", "num_interior_pts"]

/-- The text (tuple-annotated) field names of `Annotations`. -/
def Annotations.textFieldNames : List String := ["category", "track_uuid"]

/-- Build an `Annotations` record from a field-name-indexed assignment
(the `cls(**columns)` call after the keyword checks pass). -/
def buildAnnotations (f : String → Cell) : Annotations :=
  { tx_m := f "tx_m", ty_m := f "ty_m", tz_m := f "tz_m"
    length_m := f "length_m", width_m := f "width_m", height_m := f "height_m"
    qw := f "qw", qx := f "qx", qy := f "qy", qz := f "qz"
    vx_m := f "vx_m", vy_m := f "vy_m", vz_m := f "vz_m"
    timestamp_ns := f "timestamp_ns", num_interior_pts := f "num_interior_pts"
    category := f "category", track_uuid := f "track_uuid" }

/-- `getattr` restricted to the stored dataclass fields of `Annotations`. -/
def Annotations.getattrCell (a : Annotations) (n : String) : Option Cell :=
  if n = "tx_m" then some a.tx_m
  else if n = "ty_m" then some a.ty_m
  else if n = "tz_m" then some a.tz_m
  else if n = "length_m" then some a.length_m
  else if n = "width_m" then some a.width_m
  else if n = "height_m" then some a.height_m
  else if n = "qw" then some a.qw
  else if n = "qx" then some a.qx
  else if n = "qy" then some a.qy
  else if n = "qz" then some a.qz
  else if n = "vx_m" then some a.vx_m
  else if n = "vy_m" then some a.vy_m
  else if n = "vz_m" then some a.vz_m
  else if n = "timestamp_ns" then some a.timestamp_ns
  else if n = "num_interior_pts" then some a.num_interior_pts
  else if n = "category" then some a.category
  else if n = "track_uuid" then some a.track_uuid
  else none

/-- `Annotations.from_dataframe`: convert each column (`annConvert`), then call
`cls(**columns)`; CPython rejects an unexpected keyword first, then a missing
required argument. -/
def Annotations.from_dataframe (df : DataFrame) :
    Except ConstructError Annotations :=
  let columns := df.cols.map fun p => (p.1, annConvert p.2)
  match columns.find? fun p => !(Annotations.fieldNames.contains p.1) with
  | some p => .error (.unexpectedKeyword p.1)
  | none =>
    match Annotations.fieldNames.find?
        fun n => !((columns.map Prod.fst).contains n) with
    | some n => .error (.missingArgument n)
    | none => .ok (buildAnnotations fun n => (columns.lookup n).getD (.tup []))

/-- The `Lidar` dataclass. -/
structure Lidar where
  x : Cell
  y : Cell
  z : Cell
  intensity : Cell
  laser_number : Cell
  offset_ns : Cell
  deriving DecidableEq, Repr

/-- Declared field names of `Lidar`, in dataclass order. -/
def Lidar.fieldNames : List String :=
  ["x", "y", "z", "intensity", "laser_number", "offset_ns"]

/-- Build a `Lidar` record from a field-name-indexed assignment. -/
def buildLidar (f : String → Cell) : Lidar :=
  { x := f "x", y := f "y", z := f "z"
    intensity := f "intensity", laser_number := f "laser_number"
    offset_ns := f "offset_ns" }

/-- `getattr` restricted to the stored dataclass fields of `Lidar`. -/
def Lidar.getattrCell (l : Lidar) (n : String) : Option Cell :=
  if n = "x" then some l.x
  else if n = "y" then some l.y
  else if n = "z" then some l.z
  else if n = "intensity" then some l.intensity
  else if n = "laser_number" then some l.laser_number
  else if n = "offset_ns" then some l.offset_ns
  else none

/-- `Lidar.from_dataframe`: convert each column (`lidarConvert`), then call
`cls(**columns)` with the same keyword checks. -/
def Lidar.from_dataframe (df : DataFrame) : Except ConstructError Lidar :=
  let columns := df.cols.map fun p => (p.1, lidarConvert p.2)
  match columns.find? fun p => !(Lidar.fieldNames.contains p.1) with
  | some p => .error (.unexpectedKeyword p.1)
  | none =>
    match Lidar.fieldNames.find?
        fun n => !((columns.map Prod.fst).contains n) with
    | some n => .error (.missingArgument n)
    | none => .ok (buildLidar fun n => (columns.lookup n).getD (.tup []))

/-- Orientation (pose) modes for the ground truth annotations. -/
inductive OrientationMode
  | QUATERNION_WXYZ
  | YAW
  deriving DecidableEq, Repr

/-- Default `field_ordering` for `Annotations.as_tensor`
(`DEFAULT_ANNOTATIONS_TENSOR_FIELDS`). -/
def DEFAULT_ANNOTATIONS_TENSOR_FIELDS : List String :=
  ["tx_m", "ty_m", "tz_m", "length_m", "width_m", "height_m",
   "qw", "qx", "qy", "qz", "vx_m", "vy_m", "vz_m"]

/-- Default `field_ordering` for `Lidar.as_tensor`
(`DEFAULT_LIDAR_TENSOR_FIELDS`). -/
def DEFAULT_LIDAR_TENSOR_FIELDS : List String := ["x", "y", "z"]

/-- The quaternion component names removed by the YAW-mode rewrite. -/
def quatFieldNames : List String := ["qw", "qx", "qy", "qz"]

/-- Python `list.insert(i, a)` for a non-negative index: insert before position
`i`, appending when `i` exceeds the length. -/
def pyInsert (l : List α) (i : Nat) (a : α) : List α :=
  l.take i ++ a :: l.drop i

/-- The YAW-mode rewrite of a field ordering: drop the quaternion components,
then `list.insert(6, "yaw")` on the filtered list. -/
def Annotations.augmentOrdering (ordering : List String) : List String :=
  pyInsert (ordering.filter fun n => !(quatFieldNames.contains n)) 6 "yaw"

/-- The ordering `as_tensor` actually iterates over for a given orientation
mode. -/
def Annotations.effectiveOrdering (mode : OrientationMode)
    (ordering : List String) : List String :=
  match mode with
  | .YAW => Annotations.augmentOrdering ordering
  | .QUATERNION_WXYZ => ordering

/-- Failure of the exporter: `getattr` raised `AttributeError`, `torch.stack`
received a non-tensor (`TypeError`), or a tensor-shape mismatch
(`RuntimeError`). -/
inductive ExportError
  | attributeError (n : String)
  | typeError
  | runtimeError
  deriving DecidableEq, Repr

/-- A value appearing in the exporter's `fields` list: a 1-D tensor, a 2-D
tensor (the derived `quaternion` attribute), a Python tuple, or an unconverted
polars series. -/
inductive FieldVal
  | t1 (vs : List Scalar)
  | t2 (vss : List (List Scalar))
  | tupv (vs : List Scalar)
  | seriesv (s : Series)
  deriving DecidableEq, Repr

/-- View of a stored cell as an exporter field value. -/
def Cell.toFieldVal : Cell → FieldVal
  | .tensor vs => .t1 vs
  | .tup vs => .tupv vs
  | .series s => .seriesv s

/-- Underlying value of a 1-D tensor field (junk elsewhere; guarded by
`isT1`). -/
def FieldVal.t1Val : FieldVal → List Scalar
  | .t1 vs => vs
  | _ => []

/-- Underlying value of a 2-D tensor field (junk elsewhere; guarded by
`isT2`). -/
def FieldVal.t2Val : FieldVal → List (List Scalar)
  | .t2 vss => vss
  | _ => []

/-- Whether a field value is a 1-D tensor. -/
def FieldVal.isT1 : FieldVal → Bool
  | .t1 _ => true
  | _ => false

/-- Whether a field value is a 2-D tensor. -/
def FieldVal.isT2 : FieldVal → Bool
  | .t2 _ => true
  | _ => false

/-- Whether a field value is a torch tensor at all. -/
def FieldVal.isTensorLike (f : FieldVal) : Bool := f.isT1 || f.isT2

/-- `torch.stack` of 1-D tensors along `dim=-1`: defined when all lengths
agree, producing the row-major transpose. -/
def stack1 (cols : List (List Scalar)) : Option (List (List Scalar)) :=
  match cols with
  | [] => none
  | c :: rest =>
    if rest.all fun c2 => c2.length == c.length then
      some ((List.range c.length).map fun r =>
        (c :: rest).map fun col => col.getD r default)
    else none

/-- Extract the tensor held by a cell, if any. -/
def Cell.tensorVal? : Cell → Option (List Scalar)
  | .tensor vs => some vs
  | _ => none

/-- The derived `quaternion` property:
`torch.stack((qw, qx, qy, qz), dim=-1)`.  Fails with `TypeError` when a
component is not a tensor and with `RuntimeError` on a length mismatch. -/
def Annotations.quaternion (a : Annotations) :
    Except ExportError (List (List Scalar)) :=
  match a.qw.tensorVal?, a.qx.tensorVal?, a.qy.tensorVal?, a.qz.tensorVal? with
  | some ws, some xs, some ys, some zs =>
    match stack1 [ws, xs, ys, zs] with
    | some q => .ok q
    | none => .error .runtimeError
  | _, _, _, _ => .error .typeError

/-- The derived `yaw_radians` property: `quat_to_yaw(self.quaternion)`.  The
collaborator `quat_to_yaw` (av2/torch/dataloaders/conversions.py, not under
src/) is modelled from the spec: `quaternion_to_yaw(quat[...,4]) -> angle[...]`,
an elementwise conversion applied to each quaternion row, passed in as `qty`. -/
def Annotations.yaw_radians (qty : List Scalar → Scalar) (a : Annotations) :
    Except ExportError (List Scalar) :=
  (a.quaternion).map fun rows => rows.map qty

/-- The attribute names `Annotations.as_tensor` can resolve via `getattr`:
the stored dataclass fields plus the derived properties (Python method and
dunder attributes are outside the model's attribute universe). -/
def Annotations.attrNames : List String :=
  Annotations.fieldNames ++ ["quaternion", "yaw_radians"]

/-- `getattr(self, n)` as used by the exporter: stored fields, then the
derived properties, else `AttributeError`. -/
def Annotations.getattrF (qty : List Scalar → Scalar) (a : Annotations)
    (n : String) : Except ExportError FieldVal :=
  match a.getattrCell n with
  | some cell => .ok cell.toFieldVal
  | none =>
    if n = "quaternion" then (a.quaternion).map .t2
    else if n = "yaw_radians" then (a.yaw_radians qty).map .t1
    else .error (.attributeError n)

/-- One entry of the exporter's `fields` comprehension:
`getattr(self, field_name) if field_name != "yaw" else self.yaw_radians`. -/
def Annotations.resolveField (qty : List Scalar → Scalar) (a : Annotations)
    (n : String) : Except ExportError FieldVal :=
  if n = "yaw" then (a.yaw_radians qty).map .t1
  else Annotations.getattrF qty a n

/-- Evaluate the `fields` list comprehension left to right, raising at the
first failing entry. -/
def resolveAll (resolve : String → Except ExportError FieldVal) :
    List String → Except ExportError (List FieldVal)
  | [] => .ok []
  | n :: ns => do
    let f ← resolve n
    let fs ← resolveAll resolve ns
    pure (f :: fs)

/-- Result of `torch.stack(fields, dim=-1)`: a 2-D `(N, K)` tensor when the
fields are 1-D of common length `N`, a 3-D `(N, M, K)` tensor when they are
2-D of common shape `(N, M)`. -/
inductive StackResult
  | rank2 (rows : List (List Scalar))
  | rank3 (cube : List (List (List Scalar)))
  deriving DecidableEq, Repr

/-- Whether two 2-D tensors have the same shape. -/
def shapeEq (a b : List (List Scalar)) : Bool :=
  a.length == b.length && (a.zip b).all fun p => p.1.length == p.2.length

/-- `torch.stack(fields, dim=-1)`: empty list and shape mismatches raise
`RuntimeError`, non-tensor entries raise `TypeError`. -/
def stackFields (fs : List FieldVal) : Except ExportError StackResult :=
  match fs with
  | [] => .error .runtimeError
  | f :: rest =>
    if !((f :: rest).all FieldVal.isTensorLike) then .error .typeError
    else
      match f with
      | .t1 c0 =>
        if rest.all fun g => g.isT1 && (g.t1Val.length == c0.length) then
          .ok (.rank2 ((List.range c0.length).map fun r =>
            (FieldVal.t1 c0 :: rest).map fun g => g.t1Val.getD r default))
        else .error .runtimeError
      | .t2 m0 =>
        if rest.all fun g => g.isT2 && shapeEq g.t2Val m0 then
          .ok (.rank3 ((List.range m0.length).map fun i =>
            (List.range (m0.headD []).length).map fun j =>
              (FieldVal.t2 m0 :: rest).map fun g =>
                ((g.t2Val).getD i []).getD j default))
        else .error .runtimeError
      | _ => .error .typeError

/-- `.type(dtype)` on the stacked result, modelled as an elementwise cast. -/
def StackResult.castAll (cast : Scalar → Scalar) : StackResult → StackResult
  | .rank2 rows => .rank2 (rows.map fun row => row.map cast)
  | .rank3 cube => .rank3 (cube.map fun mat => mat.map fun row => row.map cast)

/-- `Annotations.as_tensor(field_ordering, orientation_mode, dtype)`:
rewrite the ordering in YAW mode, resolve each field name, stack along the
last axis and cast. -/
def Annotations.as_tensor (qty : List Scalar → Scalar)
    (cast : Scalar → Scalar) (a : Annotations) (field_ordering : List String)
    (orientation_mode : OrientationMode) : Except ExportError StackResult := do
  let fields ← resolveAll (Annotations.resolveField qty a)
    (Annotations.effectiveOrdering orientation_mode field_ordering)
  let stacked ← stackFields fields
  pure (stacked.castAll cast)

/-- `getattr(self, n)` for `Lidar`: stored fields only, else
`AttributeError`. -/
def Lidar.resolveField (l : Lidar) (n : String) :
    Except ExportError FieldVal :=
  match l.getattrCell n with
  | some cell => .ok cell.toFieldVal
  | none => .error (.attributeError n)

/-- `Lidar.as_tensor(field_ordering, dtype)`: resolve each field name, stack
along the last axis and cast. -/
def Lidar.as_tensor (cast : Scalar → Scalar) (l : Lidar)
    (field_ordering : List String) : Except ExportError StackResult := do
  let fields ← resolveAll (Lidar.resolveField l) field_ordering
  let stacked ← stackFields fields
  pure (stacked.castAll cast)

/-- Modelled from the spec: the rigid-transform collaborator
(`av2.geometry.se3.SE3`, not under src/), "constructible from a rotation
matrix and a translation vector". -/
structure SE3 where
  rotation : List (List Scalar)
  translation : List Scalar
  deriving DecidableEq, Repr

/-- Failure of the pose query chain: a selected column is absent
(`ColumnNotFoundError` from polars), or the squeezed selection does not have
the vector shape the rotation collaborator is specified for. -/
inductive QueryError
  | columnNotFound
  | shapeError
  deriving DecidableEq, Repr

/-- Select the entries of `vs` at the positions where `keep` is `true`
(boolean row mask, as applied by `DataFrame.filter`). -/
def keepIdx (keep : List Bool) (vs : List Scalar) : List Scalar :=
  ((vs.zip keep).filter fun p => p.2).map fun p => p.1

/-- `poses.filter(pl.col(n) == v)`: build the boolean mask from column `n` and
apply it to every column. -/
def DataFrame.filterEq (df : DataFrame) (n : String) (v : Scalar) :
    Option DataFrame :=
  (df.col? n).map fun s =>
    let keep := s.values.map fun x => x == v
    ⟨df.cols.map fun p => (p.1, ⟨p.2.dtype, keepIdx keep p.2.values⟩)⟩

/-- `df.select(ns).to_numpy()` as a list of columns: every named column must
exist. -/
def DataFrame.selectCols? (df : DataFrame) (ns : List String) :
    Option (List (List Scalar)) :=
  ns.mapM fun n => (df.col? n).map Series.values

/-- `numpy.squeeze` on an `(N, K)` selection with `K ≥ 2`: produces the single
row exactly when `N = 1` (otherwise the result keeps a non-vector shape).
Modelled from the spec: the rotation collaborator is specified on `quat[4]`
only, so a non-vector squeezed selection is a shape failure of the
collaborator chain, never a `NotFoundError`. -/
def squeezeRows (cols : List (List Scalar)) : Option (List Scalar) :=
  match cols with
  | [] => none
  | c :: rest =>
    if (c :: rest).all fun col => col.length == 1 then
      some ((c :: rest).map fun col => col.getD 0 default)
    else none

/-- `query_SE3(poses, timestamp_ns)`: filter to the exact timestamp match,
select the quaternion and translation columns, squeeze, and construct the
transform.  The rotation collaborator `quat_to_mat` (av2/geometry/geometry.py,
not under src/) is modelled from the spec as an abstract
`quaternion_to_matrix(quat[4]) -> matrix[3x3]` parameter. -/
def query_SE3 (quat_to_mat : List Scalar → List (List Scalar))
    (poses : DataFrame) (timestamp_ns : Scalar) : Except QueryError SE3 :=
  match poses.filterEq "timestamp_ns" timestamp_ns with
  | none => .error .columnNotFound
  | some pose =>
    match pose.selectCols? ["qw", "qx", "qy", "qz"],
        pose.selectCols? ["tx_m", "ty_m", "tz_m"] with
    | some qcols, some tcols =>
      match squeezeRows qcols, squeezeRows tcols with
      | some quat, some translation =>
        .ok { rotation := quat_to_mat quat, translation := translation }
      | _, _ => .error .shapeError
    | _, _ => .error .columnNotFound

/-! ### Association-list lemmas -/

/-- Mapping the values of an association list commutes with `lookup`. -/
theorem lookup_map_val {b : Type} (g : Series → b) (n : String) :
    ∀ l : List (String × Series),
      (l.map fun p => (p.1, g p.2)).lookup n = (l.lookup n).map g
  | [] => rfl
  | (k, v) :: rest => by
    by_cases hk : n = k
    · simp [List.lookup, hk]
    · simp [List.lookup, beq_false_of_ne hk, lookup_map_val g n rest]

/-- On an association list with distinct keys, `lookup` finds any member. -/
theorem lookup_of_mem_nodup {l : List (String × Series)} {n : String}
    {s : Series} (hmem : (n, s) ∈ l) (hnd : (l.map Prod.fst).Nodup) :
    l.lookup n = some s := by
  induction l with
  | nil => cases hmem
  | cons hd tl ih =>
    obtain ⟨k, v⟩ := hd
    rcases List.mem_cons.mp hmem with h | h
    · cases h
      simp [List.lookup]
    · have hk : n ≠ k := by
        intro he
        exact (List.nodup_cons.mp hnd).1
          (List.mem_map.mpr ⟨(n, s), h, he⟩)
      simp only [List.lookup, beq_false_of_ne hk]
      exact ih h (List.nodup_cons.mp hnd).2

/-- Reading any declared field off `buildAnnotations f` returns the assigned
cell. -/
theorem getattrCell_buildAnnotations (f : String → Cell) {n : String}
    (hn : n ∈ Annotations.fieldNames) :
    (buildAnnotations f).getattrCell n = some (f n) := by
  simp only [Annotations.fieldNames, List.mem_cons, List.not_mem_nil,
    or_false] at hn
  rcases hn with rfl | rfl | rfl | rfl | rfl | rfl | rfl | rfl | rfl | rfl |
    rfl | rfl | rfl | rfl | rfl | rfl | rfl <;> rfl

/-- Reading any declared field off `buildLidar f` returns the assigned cell. -/
theorem getattrCell_buildLidar (f : String → Cell) {n : String}
    (hn : n ∈ Lidar.fieldNames) :
    (buildLidar f).getattrCell n = some (f n) := by
  simp only [Lidar.fieldNames, List.mem_cons, List.not_mem_nil,
    or_false] at hn
  rcases hn with rfl | rfl | rfl | rfl | rfl | rfl <;> rfl

/-! ### Well-formed containers and the exporter's normal path

A container satisfying the data-model invariant (§3 of the spec: every numeric
field a tensor of common length `N`, text fields tuples of length `N`) is
exactly one of the form `Annotations.ofColumns c` / `Lidar.ofColumns c` for a
column assignment `c` of uniform length. -/

/-- A well-formed `Annotations` container built from per-field columns of
values: numeric fields hold tensors, text fields hold tuples. -/
def Annotations.ofColumns (c : String → List Scalar) : Annotations :=
  buildAnnotations fun n =>
    if Annotations.textFieldNames.contains n then .tup (c n) else .tensor (c n)

/-- A well-formed `Lidar` container built from per-field columns. -/
def Lidar.ofColumns (c : String → List Scalar) : Lidar :=
  buildLidar fun n => .tensor (c n)

/-- Row `r` of the stacked quaternion `(qw, qx, qy, qz)`. -/
def quatAt (c : String → List Scalar) (r : Nat) : List Scalar :=
  [(c "qw").getD r default, (c "qx").getD r default,
   (c "qy").getD r default, (c "qz").getD r default]

/-- The column of values an effective-ordering entry contributes on a
well-formed container: the stored column, or the derived yaw column for the
synthetic name `"yaw"`. -/
def annCol (c : String → List Scalar) (qty : List Scalar → Scalar) (N : Nat)
    (n : String) : List Scalar :=
  if n = "yaw" then (List.range N).map fun r => qty (quatAt c r) else c n

/-- Every column an ordering entry contributes has length `N`. -/
theorem annCol_length (c : String → List Scalar) (qty : List Scalar → Scalar)
    (N : Nat) (hc : ∀ n, (c n).length = N) (n : String) :
    (annCol c qty N n).length = N := by
  unfold annCol
  split <;> simp [hc]

/-- `stack1` on nonempty columns of common length `N` transposes them. -/
theorem stack1_eq (cols : List (List Scalar)) (N : Nat) (hne : cols ≠ [])
    (h : ∀ col ∈ cols, col.length = N) :
    stack1 cols = some ((List.range N).map fun r =>
      cols.map fun col => col.getD r default) := by
  match cols with
  | [] => exact absurd rfl hne
  | c :: rest =>
    have hc : c.length = N := h c (List.mem_cons_self c rest)
    have hall : (rest.all fun c2 => c2.length == N) = true := by
      rw [List.all_eq_true]
      intro c2 hc2
      exact beq_iff_eq.mpr (h c2 (List.mem_cons_of_mem _ hc2))
    simp only [stack1, hc, hall, if_true]

/-- The `quaternion` property of a well-formed container stacks the four
quaternion columns row-wise. -/
theorem quaternion_ofColumns (c : String → List Scalar) (N : Nat)
    (hc : ∀ n, (c n).length = N) :
    (Annotations.ofColumns c).quaternion =
      .ok ((List.range N).map fun r => quatAt c r) := by
  have h4 : stack1 [c "qw", c "qx", c "qy", c "qz"] =
      some ((List.range N).map fun r =>
        [c "qw", c "qx", c "qy", c "qz"].map fun col => col.getD r default) :=
    stack1_eq _ N (by simp) (by intro col hcol; simp at hcol; rcases hcol with
      rfl | rfl | rfl | rfl <;> exact hc _)
  simp [Annotations.quaternion, Annotations.ofColumns, buildAnnotations,
    Annotations.textFieldNames, Cell.tensorVal?, h4, quatAt]

/-- The `yaw_radians` property of a well-formed container applies the
quaternion-to-yaw conversion to each stacked quaternion row. -/
theorem yaw_radians_ofColumns (c : String → List Scalar) (N : Nat)
    (hc : ∀ n, (c n).length = N) (qty : List Scalar → Scalar) :
    (Annotations.ofColumns c).yaw_radians qty =
      .ok ((List.range N).map fun r => qty (quatAt c r)) := by
  simp [Annotations.yaw_radians, quaternion_ofColumns c N hc, Except.map,
    List.map_map, Function.comp]

/-- On a well-formed container, every numeric field name and the synthetic
`"yaw"` resolve to the 1-D tensor of the corresponding column. -/
theorem resolveField_ofColumns (c : String → List Scalar) (N : Nat)
    (hc : ∀ n, (c n).length = N) (qty : List Scalar → Scalar) {n : String}
    (hn : n ∈ Annotations.numericFieldNames ∨ n = "yaw") :
    Annotations.resolveField qty (Annotations.ofColumns c) n =
      .ok (.t1 (annCol c qty N n)) := by
  rcases hn with hn | rfl
  · simp only [Annotations.numericFieldNames, List.mem_cons,
      List.not_mem_nil, or_false] at hn
    rcases hn with rfl | rfl | rfl | rfl | rfl | rfl | rfl | rfl | rfl | rfl |
      rfl | rfl | rfl | rfl | rfl <;> rfl
  · simp [Annotations.resolveField, yaw_radians_ofColumns c N hc qty,
      Except.map, annCol]

/-- The comprehension succeeds pointwise when every entry resolves. -/
theorem resolveAll_ok (resolve : String → Except ExportError FieldVal)
    (fv : String → FieldVal) :
    ∀ names : List String, (∀ n ∈ names, resolve n = .ok (fv n)) →
      resolveAll resolve names = .ok (names.map fv)
  | [], _ => rfl
  | n :: ns, h => by
    simp only [resolveAll, List.map_cons]
    rw [h n (List.mem_cons_self n ns),
      resolveAll_ok resolve fv ns fun m hm => h m (List.mem_cons_of_mem _ hm)]
    rfl

/-- Bind on a successful `Except` computation reduces. -/
theorem exceptBind_ok {e a b : Type} (x : a) (f : a -> Except e b) :
    Bind.bind (Except.ok x : Except e a) f = f x := rfl

/-- `pure` for `Except` is `Except.ok`. -/
theorem exceptPure_eq_ok {e a : Type} (x : a) :
    (pure x : Except e a) = Except.ok x := rfl

/-- `torch.stack` on nonempty 1-D tensors of common length `N` produces the
2-D row-major transpose. -/
theorem stackFields_t1 (cols : List (List Scalar)) (N : Nat) (hne : cols ≠ [])
    (h : ∀ col ∈ cols, col.length = N) :
    stackFields (cols.map FieldVal.t1) =
      .ok (.rank2 ((List.range N).map fun r =>
        cols.map fun col => col.getD r default)) := by
  match cols with
  | [] => exact absurd rfl hne
  | c :: rest =>
    have hc : c.length = N := h c (List.mem_cons_self c rest)
    have htl : ((FieldVal.t1 c :: rest.map FieldVal.t1).all
        FieldVal.isTensorLike) = true := by
      rw [List.all_eq_true]
      intro g hg
      rcases List.mem_cons.mp hg with rfl | hg
      · rfl
      · obtain ⟨col, _, rfl⟩ := List.mem_map.mp hg
        rfl
    have hall : ((rest.map FieldVal.t1).all
        fun g => g.isT1 && (g.t1Val.length == c.length)) = true := by
      rw [List.all_eq_true]
      intro g hg
      obtain ⟨col, hcol, rfl⟩ := List.mem_map.mp hg
      simp [FieldVal.isT1, FieldVal.t1Val, h col (List.mem_cons_of_mem _ hcol),
        hc]
    rw [List.map_cons]
    show (if !((FieldVal.t1 c :: rest.map FieldVal.t1).all
          FieldVal.isTensorLike) then Except.error ExportError.typeError
      else if (rest.map FieldVal.t1).all
          fun g => g.isT1 && (g.t1Val.length == c.length) then
        Except.ok (StackResult.rank2 ((List.range c.length).map fun r =>
          (FieldVal.t1 c :: rest.map FieldVal.t1).map
            fun g => g.t1Val.getD r default))
      else Except.error ExportError.runtimeError) = _
    rw [htl, hall]
    show Except.ok (StackResult.rank2 ((List.range c.length).map fun r =>
      (FieldVal.t1 c :: rest.map FieldVal.t1).map
        fun g => g.t1Val.getD r default)) = _
    rw [hc]
    simp only [List.map_cons, List.map_map]
    rfl

/-- The rows `as_tensor` produces on a well-formed container: one row per
record, one cast value per effective-ordering entry. -/
def annExportRows (c : String → List Scalar) (qty : List Scalar → Scalar)
    (cast : Scalar → Scalar) (N : Nat) (eff : List String) :
    List (List Scalar) :=
  (List.range N).map fun r =>
    eff.map fun n => cast ((annCol c qty N n).getD r default)

/-- Normal path of `Annotations.as_tensor` on a well-formed container: when
every effective-ordering entry is a numeric field or the synthetic `"yaw"`
and the effective ordering is nonempty, the export succeeds with the 2-D
row-major result. -/
theorem as_tensor_ofColumns (c : String → List Scalar) (N : Nat)
    (hc : ∀ n, (c n).length = N) (qty : List Scalar → Scalar)
    (cast : Scalar → Scalar) (ordering : List String) (mode : OrientationMode)
    (hres : ∀ n ∈ Annotations.effectiveOrdering mode ordering,
      n ∈ Annotations.numericFieldNames ∨ n = "yaw")
    (hne : Annotations.effectiveOrdering mode ordering ≠ []) :
    Annotations.as_tensor qty cast (Annotations.ofColumns c) ordering mode =
      .ok (.rank2 (annExportRows c qty cast N
        (Annotations.effectiveOrdering mode ordering))) := by
  have h1 : resolveAll (Annotations.resolveField qty (Annotations.ofColumns c))
      (Annotations.effectiveOrdering mode ordering) =
      .ok ((Annotations.effectiveOrdering mode ordering).map
        fun n => .t1 (annCol c qty N n)) :=
    resolveAll_ok _ _ _ fun n hn => resolveField_ofColumns c N hc qty (hres n hn)
  have h2 : ((Annotations.effectiveOrdering mode ordering).map
      fun n => FieldVal.t1 (annCol c qty N n)) =
      ((Annotations.effectiveOrdering mode ordering).map
        (annCol c qty N)).map FieldVal.t1 := by
    rw [List.map_map]
    rfl
  have h3 := stackFields_t1
    ((Annotations.effectiveOrdering mode ordering).map (annCol c qty N)) N
    (by simpa using hne)
    (by
      intro col hcol
      obtain ⟨n, _, rfl⟩ := List.mem_map.mp hcol
      exact annCol_length c qty N hc n)
  unfold Annotations.as_tensor
  rw [h1]
  simp only [exceptBind_ok]
  rw [h2, h3]
  simp only [exceptBind_ok, exceptPure_eq_ok]
  unfold StackResult.castAll annExportRows
  simp only [List.map_map]
  congr 1
  congr 1
  apply List.map_congr_left
  intro r _
  simp only [Function.comp_apply, List.map_map]
  rfl

/-- On a well-formed lidar container, every declared field name resolves to
the 1-D tensor of its column. -/
theorem lidarResolveField_ofColumns (c : String → List Scalar) {n : String}
    (hn : n ∈ Lidar.fieldNames) :
    (Lidar.ofColumns c).resolveField n = .ok (.t1 (c n)) := by
  simp only [Lidar.fieldNames, List.mem_cons, List.not_mem_nil,
    or_false] at hn
  rcases hn with rfl | rfl | rfl | rfl | rfl | rfl <;> rfl

/-- The rows `Lidar.as_tensor` produces on a well-formed container. -/
def lidarExportRows (c : String → List Scalar) (cast : Scalar → Scalar)
    (N : Nat) (ordering : List String) : List (List Scalar) :=
  (List.range N).map fun r =>
    ordering.map fun n => cast ((c n).getD r default)

/-- Normal path of `Lidar.as_tensor` on a well-formed container. -/
theorem lidar_as_tensor_ofColumns (c : String → List Scalar) (N : Nat)
    (hc : ∀ n, (c n).length = N) (cast : Scalar → Scalar)
    (ordering : List String)
    (hres : ∀ n ∈ ordering, n ∈ Lidar.fieldNames) (hne : ordering ≠ []) :
    Lidar.as_tensor cast (Lidar.ofColumns c) ordering =
      .ok (.rank2 (lidarExportRows c cast N ordering)) := by
  have h1 : resolveAll ((Lidar.ofColumns c).resolveField) ordering =
      .ok (ordering.map fun n => .t1 (c n)) :=
    resolveAll_ok _ _ _ fun n hn => lidarResolveField_ofColumns c (hres n hn)
  have h2 : (ordering.map fun n => FieldVal.t1 (c n)) =
      (ordering.map c).map FieldVal.t1 := by
    rw [List.map_map]
    rfl
  have h3 := stackFields_t1 (ordering.map c) N
    (by simpa using hne)
    (by
      intro col hcol
      obtain ⟨n, _, rfl⟩ := List.mem_map.mp hcol
      exact hc n)
  unfold Lidar.as_tensor
  rw [h1]
  simp only [exceptBind_ok]
  rw [h2, h3]
  simp only [exceptBind_ok, exceptPure_eq_ok]
  unfold StackResult.castAll lidarExportRows
  simp only [List.map_map]
  congr 1
  congr 1
  apply List.map_congr_left
  intro r _
  simp only [Function.comp_apply, List.map_map]
  rfl

/-! ### Ordering-rewrite lemmas -/

/-- The quaternion-free filtered ordering built by the YAW-mode rewrite. -/
def yawFiltered (ordering : List String) : List String :=
  ordering.filter fun n => !(quatFieldNames.contains n)

/-- The YAW rewrite is `pyInsert` at index 6 on the filtered ordering. -/
theorem augment_eq (ordering : List String) :
    Annotations.augmentOrdering ordering =
      pyInsert (yawFiltered ordering) 6 "yaw" := rfl

/-- `pyInsert` never returns the empty list. -/
theorem pyInsert_ne_nil (l : List α) (i : Nat) (a : α) :
    pyInsert l i a ≠ [] := by
  unfold pyInsert
  intro h
  rcases List.append_eq_nil.mp h with ⟨-, h2⟩
  cases h2

/-- `pyInsert` keeps every element of the original list. -/
theorem pyInsert_mem_of_mem {l : List α} {x : α} (h : x ∈ l) (i : Nat)
    (a : α) : x ∈ pyInsert l i a := by
  unfold pyInsert
  rw [List.mem_append, List.mem_cons]
  have hx : x ∈ l.take i ++ l.drop i := by
    rw [List.take_append_drop]
    exact h
  rcases List.mem_append.mp hx with h1 | h2
  · exact Or.inl h1
  · exact Or.inr (Or.inr h2)

/-- Membership in the YAW-rewritten ordering comes from the original ordering
or is the synthetic `"yaw"`. -/
theorem mem_augment {ordering : List String} {n : String}
    (hn : n ∈ Annotations.augmentOrdering ordering) :
    n ∈ ordering ∨ n = "yaw" := by
  rw [augment_eq] at hn
  unfold pyInsert at hn
  rcases List.mem_append.mp hn with h | h
  · exact Or.inl (List.mem_of_mem_filter (List.take_subset _ _ h))
  · rcases List.mem_cons.mp h with rfl | h
    · exact Or.inr rfl
    · exact Or.inl (List.mem_of_mem_filter (List.drop_subset _ _ h))

/-- The element inserted between a prefix and a suffix sits at the prefix's
length. -/
theorem getElem?_append_cons (l1 l2 : List α) (a : α) :
    (l1 ++ a :: l2)[l1.length]? = some a := by
  induction l1 with
  | nil => simp
  | cons b rest ih => simpa using ih

/-- Indexing a mapped range at an in-range position. -/
theorem getD_map_range {f : Nat → α} {N r : Nat} (h : r < N) (d : α) :
    (((List.range N).map f).getD r d) = f r := by
  rw [List.getD_eq_getElem?_getD, List.getElem?_map, List.getElem?_range h]
  rfl

/-- Reading a mapped list at a position whose underlying entry is known. -/
theorem getD_map_of_getElem? {l : List α} {i : Nat} {x : α} (f : α → β)
    (h : l[i]? = some x) (d : β) : (l.map f).getD i d = f x := by
  rw [List.getD_eq_getElem?_getD, List.getElem?_map, h]
  rfl

/-! ### Adapter inversion lemmas -/

/-- A successful `Annotations.from_dataframe` implies every column name is a
declared field and the result is the keyword construction over the converted
columns. -/
theorem annotations_from_dataframe_ok {df : DataFrame} {a : Annotations}
    (h : Annotations.from_dataframe df = .ok a) :
    (∀ p ∈ df.cols, Annotations.fieldNames.contains p.1 = true) ∧
      a = buildAnnotations fun n =>
        (((df.cols.map fun p => (p.1, annConvert p.2)).lookup n).getD
          (.tup [])) := by
  unfold Annotations.from_dataframe at h
  dsimp only at h
  split at h
  next p hfind => cases h
  next hfind1 =>
    split at h
    next n hfind2 => cases h
    next hfind2 =>
      refine ⟨?_, (Except.ok.injEq _ _).mp h.symm⟩
      intro p hp
      have := List.find?_eq_none.mp hfind1 _ (List.mem_map_of_mem _ hp)
      simpa using this

/-- A successful `Lidar.from_dataframe` implies every column name is a
declared field and the result is the keyword construction over the converted
columns. -/
theorem lidar_from_dataframe_ok {df : DataFrame} {l : Lidar}
    (h : Lidar.from_dataframe df = .ok l) :
    (∀ p ∈ df.cols, Lidar.fieldNames.contains p.1 = true) ∧
      l = buildLidar fun n =>
        (((df.cols.map fun p => (p.1, lidarConvert p.2)).lookup n).getD
          (.tup [])) := by
  unfold Lidar.from_dataframe at h
  dsimp only at h
  split at h
  next p hfind => cases h
  next hfind1 =>
    split at h
    next n hfind2 => cases h
    next hfind2 =>
      refine ⟨?_, (Except.ok.injEq _ _).mp h.symm⟩
      intro p hp
      have := List.find?_eq_none.mp hfind1 _ (List.mem_map_of_mem _ hp)
      simpa using this

/-! ### Exporter error-path lemmas -/

/-- Whether an export outcome is the attribute-lookup failure. -/
def isAttrErr : Except ExportError StackResult → Bool
  | .error (.attributeError _) => true
  | _ => false

/-- When the comprehension contains a name whose resolution raises
`AttributeError` and every earlier name resolves, the whole comprehension
raises an `AttributeError`. -/
theorem resolveAll_attrError (resolve : String → Except ExportError FieldVal)
    (bad : String → Bool) :
    ∀ names : List String,
      (∀ n ∈ names, bad n = false → ∃ fv, resolve n = .ok fv) →
      (∀ n ∈ names, bad n = true → resolve n = .error (.attributeError n)) →
      (∃ n ∈ names, bad n = true) →
      ∃ m, bad m = true ∧
        resolveAll resolve names = .error (.attributeError m)
  | [], _, _, hex => by
    obtain ⟨n, hn, -⟩ := hex
    cases hn
  | n :: ns, hgood, hbad, hex => by
    cases hb : bad n with
    | true =>
      refine ⟨n, hb, ?_⟩
      simp only [resolveAll]
      rw [hbad n (List.mem_cons_self n ns) hb]
      rfl
    | false =>
      obtain ⟨fv, hfv⟩ := hgood n (List.mem_cons_self n ns) hb
      have hex2 : ∃ m ∈ ns, bad m = true := by
        obtain ⟨m, hm, hbm⟩ := hex
        rcases List.mem_cons.mp hm with rfl | hm2
        · rw [hb] at hbm
          cases hbm
        · exact ⟨m, hm2, hbm⟩
      obtain ⟨m, hbm, hres⟩ := resolveAll_attrError resolve bad ns
        (fun k hk => hgood k (List.mem_cons_of_mem _ hk))
        (fun k hk => hbad k (List.mem_cons_of_mem _ hk)) hex2
      refine ⟨m, hbm, ?_⟩
      simp only [resolveAll]
      rw [hfv]
      simp only [exceptBind_ok]
      rw [hres]
      rfl

/-- The attribute names `Lidar.as_tensor` can resolve: the stored fields
(`Lidar` declares no derived properties). -/
def Lidar.attrNames : List String := Lidar.fieldNames

/-- On a well-formed container, every modelled attribute name (or the
synthetic `"yaw"`) resolves without raising. -/
theorem resolveField_ok_of_attr (c : String → List Scalar) (N : Nat)
    (hc : ∀ n, (c n).length = N) (qty : List Scalar → Scalar) {m : String}
    (hm : m ∈ Annotations.attrNames ∨ m = "yaw") :
    ∃ fv, Annotations.resolveField qty (Annotations.ofColumns c) m = .ok fv := by
  rcases hm with hm | rfl
  · simp only [Annotations.attrNames, Annotations.fieldNames,
      List.mem_append, List.mem_cons, List.not_mem_nil, or_false] at hm
    rcases hm with hfield | hprop
    · rcases hfield with rfl | rfl | rfl | rfl | rfl | rfl | rfl | rfl | rfl |
        rfl | rfl | rfl | rfl | rfl | rfl | rfl | rfl <;> exact ⟨_, rfl⟩
    · rcases hprop with rfl | rfl
      · exact ⟨.t2 ((List.range N).map fun r => quatAt c r), by
          simp [Annotations.resolveField, Annotations.getattrF,
            Annotations.getattrCell, quaternion_ofColumns c N hc,
            Except.map]⟩
      · exact ⟨.t1 ((List.range N).map fun r => qty (quatAt c r)), by
          simp [Annotations.resolveField, Annotations.getattrF,
            Annotations.getattrCell, yaw_radians_ofColumns c N hc qty,
            Except.map]⟩
  · exact ⟨_, resolveField_ofColumns c N hc qty (Or.inr rfl)⟩

/-- A name outside the modelled attribute universe (and distinct from the
synthetic `"yaw"`) raises `AttributeError` on any `Annotations` container. -/
theorem resolveField_attrError (qty : List Scalar → Scalar) (a : Annotations)
    {n : String} (hn : n ∉ Annotations.attrNames) (hny : n ≠ "yaw") :
    Annotations.resolveField qty a n = .error (.attributeError n) := by
  simp only [Annotations.attrNames, Annotations.fieldNames, List.mem_append,
    List.mem_cons, List.not_mem_nil, or_false, not_or] at hn
  obtain ⟨⟨h1, h2, h3, h4, h5, h6, h7, h8, h9, h10, h11, h12, h13, h14, h15,
    h16, h17⟩, h18, h19⟩ := hn
  simp [Annotations.resolveField, hny, Annotations.getattrF,
    Annotations.getattrCell, h1, h2, h3, h4, h5, h6, h7, h8, h9, h10, h11,
    h12, h13, h14, h15, h16, h17, h18, h19]

/-- Every declared `Lidar` field name resolves on a well-formed container. -/
theorem lidarResolve_ok_of_attr (c : String → List Scalar) {m : String}
    (hm : m ∈ Lidar.attrNames) :
    ∃ fv, (Lidar.ofColumns c).resolveField m = .ok fv :=
  ⟨_, lidarResolveField_ofColumns c hm⟩

/-- A name outside the `Lidar` fields raises `AttributeError` on any
container. -/
theorem lidarResolveField_attrError (l : Lidar) {n : String}
    (hn : n ∉ Lidar.attrNames) :
    l.resolveField n = .error (.attributeError n) := by
  simp only [Lidar.attrNames, Lidar.fieldNames, List.mem_cons,
    List.not_mem_nil, or_false, not_or] at hn
  obtain ⟨h1, h2, h3, h4, h5, h6⟩ := hn
  simp [Lidar.resolveField, Lidar.getattrCell, h1, h2, h3, h4, h5, h6]

/-! ### Row-mask lemmas for the pose query -/

/-- A kept head passes through the mask. -/
theorem keepIdx_cons_true (v : Scalar) (vs : List Scalar)
    (keep : List Bool) :
    keepIdx (true :: keep) (v :: vs) = v :: keepIdx keep vs := by
  simp [keepIdx, List.filter_cons]

/-- A dropped head is removed by the mask. -/
theorem keepIdx_cons_false (v : Scalar) (vs : List Scalar)
    (keep : List Bool) :
    keepIdx (false :: keep) (v :: vs) = keepIdx keep vs := by
  simp [keepIdx, List.filter_cons]

/-- An all-false mask keeps nothing. -/
theorem keepIdx_allFalse (keep : List Bool) (vs : List Scalar)
    (h : ∀ b ∈ keep, b = false) : keepIdx keep vs = [] := by
  induction keep generalizing vs with
  | nil => cases vs <;> rfl
  | cons b rest ih =>
    cases vs with
    | nil => rfl
    | cons v vrest =>
      have hb : b = false := h b (List.mem_cons_self b rest)
      subst hb
      rw [keepIdx_cons_false]
      exact ih vrest fun b2 hb2 => h b2 (List.mem_cons_of_mem _ hb2)

/-- The equality mask of a timestamp column containing its target exactly
once keeps exactly the entry at the match position. -/
theorem keepIdx_single (t : Scalar) :
    ∀ (pre post : List Scalar), (∀ x ∈ pre, (x == t) = false) →
      (∀ x ∈ post, (x == t) = false) →
      ∀ vs : List Scalar, vs.length = pre.length + 1 + post.length →
        keepIdx ((pre ++ t :: post).map fun x => x == t) vs =
          [vs.getD pre.length default]
  | [], post, _, hpost => by
    intro vs hlen
    cases vs with
    | nil => exact absurd hlen (by simp; omega)
    | cons v vrest =>
      have hteq : (t == t) = true := beq_self_eq_true t
      rw [List.nil_append, List.map_cons, hteq, keepIdx_cons_true]
      rw [keepIdx_allFalse]
      · rfl
      · intro b hb
        obtain ⟨x, hx, rfl⟩ := List.mem_map.mp hb
        exact hpost x hx
  | p :: prest, post, hpre, hpost => by
    intro vs hlen
    cases vs with
    | nil => exact absurd hlen (by simp; omega)
    | cons v vrest =>
      have hp : (p == t) = false := hpre p (List.mem_cons_self p prest)
      have hlen2 : vrest.length = prest.length + 1 + post.length := by
        simp only [List.length_cons] at hlen
        omega
      rw [List.cons_append, List.map_cons, hp, keepIdx_cons_false]
      rw [keepIdx_single t prest post
        (fun x hx => hpre x (List.mem_cons_of_mem _ hx)) hpost vrest hlen2]
      rfl

/-! ### Claim C1 -/

/-- A lidar table whose `x` column is declared `Float64` (the other columns
are the usual `Float32`/`Int32`). -/
def lidarF64Table : DataFrame :=
  ⟨[("x", ⟨.float64, [.num 1]⟩), ("y", ⟨.float32, [.num 2]⟩),
    ("z", ⟨.float32, [.num 3]⟩), ("intensity", ⟨.float32, [.num 4]⟩),
    ("laser_number", ⟨.int32, [.num 5]⟩), ("offset_ns", ⟨.int32, [.num 6]⟩)]⟩

/-- C1 counterexample: `Lidar.from_dataframe` does not convert a `Float64`
column to a numeric tensor — `pl.Float64` is absent from its dtype check, so
the column is left as the raw polars series (neither a tensor nor a tuple),
refuting the claim at this concrete table. -/
theorem claim_C1_counterexample :
    Lidar.from_dataframe lidarF64Table =
      Except.ok ⟨Cell.series ⟨DType.float64, [Scalar.num 1]⟩,
        Cell.tensor [Scalar.num 2], Cell.tensor [Scalar.num 3],
        Cell.tensor [Scalar.num 4], Cell.tensor [Scalar.num 5],
        Cell.tensor [Scalar.num 6]⟩ ∧
      lidarF64Table.col? "x" = some ⟨DType.float64, [Scalar.num 1]⟩ :=
  ⟨rfl, rfl⟩

/-- C1 (amended): for `Annotations.from_dataframe`, every column of declared
kind in \x7bfloat32, float64, int32\x7d becomes a tensor of the same values in
order and every other column becomes a tuple of its values; for
`Lidar.from_dataframe` the numeric kinds are only \x7bfloat32, int32\x7d, and
every other column is passed through as the original series object.  In both
cases attribute access on the constructed container reproduces the original
column values exactly. -/
theorem claim_C1_amended :
    (∀ df : DataFrame, (df.cols.map Prod.fst).Nodup →
      ∀ a : Annotations, Annotations.from_dataframe df = .ok a →
        ∀ p ∈ df.cols, a.getattrCell p.1 =
          some (if annNumericKinds.contains p.2.dtype then
            Cell.tensor p.2.values else Cell.tup p.2.values)) ∧
    (∀ df : DataFrame, (df.cols.map Prod.fst).Nodup →
      ∀ l : Lidar, Lidar.from_dataframe df = .ok l →
        ∀ p ∈ df.cols, l.getattrCell p.1 =
          some (if lidarNumericKinds.contains p.2.dtype then
            Cell.tensor p.2.values else Cell.series p.2)) := by
  constructor
  · intro df hnd a hok p hp
    obtain ⟨hfields, rfl⟩ := annotations_from_dataframe_ok hok
    have hmem : p.1 ∈ Annotations.fieldNames := by
      simpa using hfields p hp
    rw [getattrCell_buildAnnotations _ hmem,
      lookup_map_val annConvert p.1 df.cols,
      lookup_of_mem_nodup (show (p.1, p.2) ∈ df.cols from hp) hnd]
    rfl
  · intro df hnd l hok p hp
    obtain ⟨hfields, rfl⟩ := lidar_from_dataframe_ok hok
    have hmem : p.1 ∈ Lidar.fieldNames := by
      simpa using hfields p hp
    rw [getattrCell_buildLidar _ hmem,
      lookup_map_val lidarConvert p.1 df.cols,
      lookup_of_mem_nodup (show (p.1, p.2) ∈ df.cols from hp) hnd]
    rfl

/-- A fully well-typed one-row annotations table. -/
def annTable0 : DataFrame :=
  ⟨[("tx_m", ⟨.float32, [.num 1]⟩), ("ty_m", ⟨.float32, [.num 2]⟩),
    ("tz_m", ⟨.float32, [.num 3]⟩), ("length_m", ⟨.float32, [.num 4]⟩),
    ("width_m", ⟨.float32, [.num 5]⟩), ("height_m", ⟨.float32, [.num 6]⟩),
    ("qw", ⟨.float64, [.num 1]⟩), ("qx", ⟨.float64, [.num 0]⟩),
    ("qy", ⟨.float64, [.num 0]⟩), ("qz", ⟨.float64, [.num 0]⟩),
    ("vx_m", ⟨.float32, [.num 7]⟩), ("vy_m", ⟨.float32, [.num 8]⟩),
    ("vz_m", ⟨.float32, [.num 9]⟩), ("timestamp_ns", ⟨.int64, [.num 10]⟩),
    ("num_interior_pts", ⟨.int32, [.num 11]⟩),
    ("category", ⟨.utf8, [.str "REGULAR_VEHICLE"]⟩),
    ("track_uuid", ⟨.utf8, [.str "uuid-0"]⟩)]⟩

/-- The container `annTable0` constructs. -/
def annA0 : Annotations :=
  ⟨.tensor [.num 1], .tensor [.num 2], .tensor [.num 3], .tensor [.num 4],
   .tensor [.num 5], .tensor [.num 6], .tensor [.num 1], .tensor [.num 0],
   .tensor [.num 0], .tensor [.num 0], .tensor [.num 7], .tensor [.num 8],
   .tensor [.num 9], .tup [.num 10], .tensor [.num 11],
   .tup [.str "REGULAR_VEHICLE"], .tup [.str "uuid-0"]⟩

/-- A fully well-typed one-row lidar table. -/
def lidarTable0 : DataFrame :=
  ⟨[("x", ⟨.float32, [.num 1]⟩), ("y", ⟨.float32, [.num 2]⟩),
    ("z", ⟨.float32, [.num 3]⟩), ("intensity", ⟨.float32, [.num 4]⟩),
    ("laser_number", ⟨.int32, [.num 5]⟩), ("offset_ns", ⟨.int32, [.num 6]⟩)]⟩

/-- The container `lidarTable0` constructs. -/
def lidarL0 : Lidar :=
  ⟨.tensor [.num 1], .tensor [.num 2], .tensor [.num 3], .tensor [.num 4],
   .tensor [.num 5], .tensor [.num 6]⟩

/-- Witness for C1 (amended) at concrete one-row tables, exercising the
tuple branch (`timestamp_ns` is `Int64`) and a tensor column. -/
theorem claim_C1_amended_witness :
    annA0.getattrCell "timestamp_ns" =
      some (if annNumericKinds.contains DType.int64 then
        Cell.tensor [Scalar.num 10] else Cell.tup [Scalar.num 10]) ∧
    lidarL0.getattrCell "x" =
      some (if lidarNumericKinds.contains DType.float32 then
        Cell.tensor [Scalar.num 1] else Cell.series ⟨.float32, [.num 1]⟩) :=
  ⟨claim_C1_amended.1 annTable0 (by decide) annA0 (by rfl)
      ("timestamp_ns", ⟨.int64, [.num 10]⟩) (by decide),
    claim_C1_amended.2 lidarTable0 (by decide) lidarL0 (by rfl)
      ("x", ⟨.float32, [.num 1]⟩) (by decide)⟩

/-! ### Claim C7 -/

/-- Whether `Annotations.from_dataframe` failed with a construction error
naming a genuinely unexpected column or a genuinely missing field. -/
def annBadResult (df : DataFrame) : Bool :=
  match Annotations.from_dataframe df with
  | .error (.unexpectedKeyword n) =>
    (df.cols.map Prod.fst).contains n && !(Annotations.fieldNames.contains n)
  | .error (.missingArgument n) =>
    Annotations.fieldNames.contains n && !((df.cols.map Prod.fst).contains n)
  | .ok _ => false

/-- Whether `Lidar.from_dataframe` failed with a construction error naming a
genuinely unexpected column or a genuinely missing field. -/
def lidarBadResult (df : DataFrame) : Bool :=
  match Lidar.from_dataframe df with
  | .error (.unexpectedKeyword n) =>
    (df.cols.map Prod.fst).contains n && !(Lidar.fieldNames.contains n)
  | .error (.missingArgument n) =>
    Lidar.fieldNames.contains n && !((df.cols.map Prod.fst).contains n)
  | .ok _ => false

/-- C7: whenever the table's column-name set differs from the container's
declared field names, `from_dataframe` fails with a construction error naming
an unexpected or missing field and never constructs a container. -/
theorem claim_C7 :
    (∀ df : DataFrame,
      ¬(∀ n : String, n ∈ df.cols.map Prod.fst ↔ n ∈ Annotations.fieldNames) →
      annBadResult df = true) ∧
    (∀ df : DataFrame,
      ¬(∀ n : String, n ∈ df.cols.map Prod.fst ↔ n ∈ Lidar.fieldNames) →
      lidarBadResult df = true) := by
  constructor
  · intro df hmis
    have hnames : (df.cols.map fun p => (p.1, annConvert p.2)).map Prod.fst =
        df.cols.map Prod.fst := by
      rw [List.map_map]
      rfl
    cases h1 : (df.cols.map fun p => (p.1, annConvert p.2)).find?
        fun p => !(Annotations.fieldNames.contains p.1) with
    | some p =>
      have hfd : Annotations.from_dataframe df =
          .error (.unexpectedKeyword p.1) := by
        unfold Annotations.from_dataframe
        dsimp only
        rw [h1]
      have hnotf : Annotations.fieldNames.contains p.1 = false := by
        have := List.find?_some h1
        simpa using this
      have hinn : p.1 ∈ df.cols.map Prod.fst := by
        rw [← hnames]
        exact List.mem_map_of_mem Prod.fst (List.mem_of_find?_eq_some h1)
      unfold annBadResult
      rw [hfd]
      simp [hinn]
      simpa using hnotf
    | none =>
      cases h2 : Annotations.fieldNames.find?
          (fun n => !(((df.cols.map fun p => (p.1, annConvert p.2)).map
            Prod.fst).contains n)) with
      | some n =>
        have hfd : Annotations.from_dataframe df =
            .error (.missingArgument n) := by
          unfold Annotations.from_dataframe
          dsimp only
          rw [h1, h2]
        have hinf : n ∈ Annotations.fieldNames :=
          List.mem_of_find?_eq_some h2
        have hnotn : (df.cols.map Prod.fst).contains n = false := by
          have := List.find?_some h2
          rw [hnames] at this
          simpa using this
        unfold annBadResult
        rw [hfd]
        simp [hinf]
        intro x hx
        exact absurd (List.mem_map_of_mem Prod.fst hx) (by simpa using hnotn)
      | none =>
        exfalso
        apply hmis
        intro n
        constructor
        · intro hn
          obtain ⟨q, hq, rfl⟩ := List.mem_map.mp hn
          have := List.find?_eq_none.mp h1 _ (List.mem_map_of_mem _ hq)
          simpa using this
        · intro hn
          have := List.find?_eq_none.mp h2 n hn
          rw [hnames] at this
          simpa using this
  · intro df hmis
    have hnames : (df.cols.map fun p => (p.1, lidarConvert p.2)).map Prod.fst =
        df.cols.map Prod.fst := by
      rw [List.map_map]
      rfl
    cases h1 : (df.cols.map fun p => (p.1, lidarConvert p.2)).find?
        fun p => !(Lidar.fieldNames.contains p.1) with
    | some p =>
      have hfd : Lidar.from_dataframe df =
          .error (.unexpectedKeyword p.1) := by
        unfold Lidar.from_dataframe
        dsimp only
        rw [h1]
      have hnotf : Lidar.fieldNames.contains p.1 = false := by
        have := List.find?_some h1
        simpa using this
      have hinn : p.1 ∈ df.cols.map Prod.fst := by
        rw [← hnames]
        exact List.mem_map_of_mem Prod.fst (List.mem_of_find?_eq_some h1)
      unfold lidarBadResult
      rw [hfd]
      simp [hinn]
      simpa using hnotf
    | none =>
      cases h2 : Lidar.fieldNames.find?
          (fun n => !(((df.cols.map fun p => (p.1, lidarConvert p.2)).map
            Prod.fst).contains n)) with
      | some n =>
        have hfd : Lidar.from_dataframe df = .error (.missingArgument n) := by
          unfold Lidar.from_dataframe
          dsimp only
          rw [h1, h2]
        have hinf : n ∈ Lidar.fieldNames := List.mem_of_find?_eq_some h2
        have hnotn : (df.cols.map Prod.fst).contains n = false := by
          have := List.find?_some h2
          rw [hnames] at this
          simpa using this
        unfold lidarBadResult
        rw [hfd]
        simp [hinf]
        intro x hx
        exact absurd (List.mem_map_of_mem Prod.fst hx) (by simpa using hnotn)
      | none =>
        exfalso
        apply hmis
        intro n
        constructor
        · intro hn
          obtain ⟨q, hq, rfl⟩ := List.mem_map.mp hn
          have := List.find?_eq_none.mp h1 _ (List.mem_map_of_mem _ hq)
          simpa using this
        · intro hn
          have := List.find?_eq_none.mp h2 n hn
          rw [hnames] at this
          simpa using this

/-- Witness for C7: a one-column table with an unknown column name, and a
lidar table missing `offset_ns`. -/
theorem claim_C7_witness :
    annBadResult ⟨[("foo", ⟨.float32, [.num 1]⟩)]⟩ = true ∧
    lidarBadResult ⟨[("x", ⟨.float32, [.num 1]⟩), ("y", ⟨.float32, [.num 2]⟩),
      ("z", ⟨.float32, [.num 3]⟩), ("intensity", ⟨.float32, [.num 4]⟩),
      ("laser_number", ⟨.int32, [.num 5]⟩)]⟩ = true :=
  ⟨claim_C7.1 _ fun hall =>
      absurd ((hall "tx_m").mpr (by decide)) (by decide),
    claim_C7.2 _ fun hall =>
      absurd ((hall "offset_ns").mpr (by decide)) (by decide)⟩

/-! ### Claim C2 -/

/-- Every entry of the YAW-rewritten ordering of a numeric-field ordering is
numeric or the synthetic `"yaw"`. -/
theorem augment_resolvable {ordering : List String}
    (hord : ∀ n ∈ ordering, n ∈ Annotations.numericFieldNames) :
    ∀ n ∈ Annotations.effectiveOrdering .YAW ordering,
      n ∈ Annotations.numericFieldNames ∨ n = "yaw" := by
  intro n hn
  rcases mem_augment hn with h | rfl
  · exact Or.inl (hord n h)
  · exact Or.inr rfl

/-- C2: in YAW mode (the default) the exporter's effective ordering is the
given ordering with every quaternion component removed and the synthetic
`"yaw"` inserted at index 6 of the filtered list, and the yaw column of the
output is the derived `yaw_radians` value — `quat_to_yaw` of the stacked
quaternion — not any stored attribute. -/
theorem claim_C2 (c : String → List Scalar) (N : Nat)
    (hc : ∀ n, (c n).length = N) (qty : List Scalar → Scalar)
    (cast : Scalar → Scalar) (ordering : List String)
    (hord : ∀ n ∈ ordering, n ∈ Annotations.numericFieldNames)
    (h6 : 6 ≤ (yawFiltered ordering).length) :
    Annotations.effectiveOrdering .YAW ordering =
      (yawFiltered ordering).take 6 ++ "yaw" :: (yawFiltered ordering).drop 6 ∧
    (Annotations.effectiveOrdering .YAW ordering)[6]? = some "yaw" ∧
    Annotations.as_tensor qty cast (Annotations.ofColumns c) ordering .YAW =
      .ok (.rank2 (annExportRows c qty cast N
        (Annotations.effectiveOrdering .YAW ordering))) ∧
    ∀ r, r < N →
      ((annExportRows c qty cast N
        (Annotations.effectiveOrdering .YAW ordering)).getD r []).getD 6
          default = cast (qty (quatAt c r)) := by
  have hyaw6 : (Annotations.effectiveOrdering .YAW ordering)[6]? =
      some "yaw" := by
    have hlen : ((yawFiltered ordering).take 6).length = 6 := by
      rw [List.length_take]
      omega
    show (pyInsert (yawFiltered ordering) 6 "yaw")[6]? = some "yaw"
    unfold pyInsert
    have happ := getElem?_append_cons ((yawFiltered ordering).take 6)
      ((yawFiltered ordering).drop 6) "yaw"
    rw [hlen] at happ
    exact happ
  refine ⟨rfl, hyaw6, as_tensor_ofColumns c N hc qty cast ordering .YAW
    (augment_resolvable hord) (pyInsert_ne_nil _ _ _), ?_⟩
  intro r hr
  unfold annExportRows
  rw [getD_map_range hr, getD_map_of_getElem? _ hyaw6]
  show cast ((annCol c qty N "yaw").getD r default) = _
  have hy : annCol c qty N "yaw" =
      (List.range N).map fun i => qty (quatAt c i) := rfl
  rw [hy, getD_map_range hr]

/-- Constant test column assignment used by concrete witnesses. -/
def wCols : String → List Scalar := fun _ => [Scalar.num 1]

/-- Concrete quaternion-to-yaw stand-in used by concrete witnesses. -/
def wQty : List Scalar → Scalar := fun _ => Scalar.num 5

/-- Witness for C2 at the default annotations ordering with one record. -/
theorem claim_C2_witness :
    Annotations.effectiveOrdering .YAW DEFAULT_ANNOTATIONS_TENSOR_FIELDS =
      (yawFiltered DEFAULT_ANNOTATIONS_TENSOR_FIELDS).take 6 ++ "yaw" ::
        (yawFiltered DEFAULT_ANNOTATIONS_TENSOR_FIELDS).drop 6 ∧
    (Annotations.effectiveOrdering .YAW
      DEFAULT_ANNOTATIONS_TENSOR_FIELDS)[6]? = some "yaw" ∧
    Annotations.as_tensor wQty id (Annotations.ofColumns wCols)
      DEFAULT_ANNOTATIONS_TENSOR_FIELDS .YAW =
      .ok (.rank2 (annExportRows wCols wQty id 1
        (Annotations.effectiveOrdering .YAW
          DEFAULT_ANNOTATIONS_TENSOR_FIELDS))) ∧
    ((annExportRows wCols wQty id 1 (Annotations.effectiveOrdering .YAW
      DEFAULT_ANNOTATIONS_TENSOR_FIELDS)).getD 0 []).getD 6 default =
      id (wQty (quatAt wCols 0)) := by
  have h := claim_C2 wCols 1 (fun _ => rfl) wQty id
    DEFAULT_ANNOTATIONS_TENSOR_FIELDS (by decide) (by decide)
  exact ⟨h.1, h.2.1, h.2.2.1, h.2.2.2 0 (by decide)⟩

/-! ### Claim C10 -/

/-- C10: when the quaternion-filtered ordering has fewer than six entries,
`list.insert(6, "yaw")` clamps — the synthetic `"yaw"` is appended at the end
of the filtered list (there is no index 6 at all), so the last output column,
not the seventh, is the yaw column. -/
theorem claim_C10 (c : String → List Scalar) (N : Nat)
    (hc : ∀ n, (c n).length = N) (qty : List Scalar → Scalar)
    (cast : Scalar → Scalar) (ordering : List String)
    (hord : ∀ n ∈ ordering, n ∈ Annotations.numericFieldNames)
    (hlt : (yawFiltered ordering).length < 6) :
    Annotations.effectiveOrdering .YAW ordering =
      yawFiltered ordering ++ ["yaw"] ∧
    (Annotations.effectiveOrdering .YAW ordering)[6]? = none ∧
    (Annotations.effectiveOrdering .YAW ordering).length =
      (yawFiltered ordering).length + 1 ∧
    Annotations.as_tensor qty cast (Annotations.ofColumns c) ordering .YAW =
      .ok (.rank2 (annExportRows c qty cast N
        (Annotations.effectiveOrdering .YAW ordering))) ∧
    ∀ r, r < N →
      ((annExportRows c qty cast N (Annotations.effectiveOrdering .YAW
        ordering)).getD r []).getD (yawFiltered ordering).length default =
        cast (qty (quatAt c r)) ∧
      ((annExportRows c qty cast N (Annotations.effectiveOrdering .YAW
        ordering)).getD r []).length =
        (yawFiltered ordering).length + 1 := by
  have heq : Annotations.effectiveOrdering .YAW ordering =
      yawFiltered ordering ++ ["yaw"] := by
    show pyInsert (yawFiltered ordering) 6 "yaw" = _
    unfold pyInsert
    rw [List.take_of_length_le (by omega), List.drop_eq_nil_of_le (by omega)]
  have hlen : (Annotations.effectiveOrdering .YAW ordering).length =
      (yawFiltered ordering).length + 1 := by
    rw [heq, List.length_append]
    rfl
  have hyawpos : (Annotations.effectiveOrdering .YAW ordering)[
      (yawFiltered ordering).length]? = some "yaw" := by
    rw [heq]
    exact getElem?_append_cons _ [] _
  refine ⟨heq, List.getElem?_eq_none (by omega), hlen,
    as_tensor_ofColumns c N hc qty cast ordering .YAW
      (augment_resolvable hord) (pyInsert_ne_nil _ _ _), ?_⟩
  intro r hr
  constructor
  · unfold annExportRows
    rw [getD_map_range hr, getD_map_of_getElem? _ hyawpos]
    show cast ((annCol c qty N "yaw").getD r default) = _
    have hy : annCol c qty N "yaw" =
        (List.range N).map fun i => qty (quatAt c i) := rfl
    rw [hy, getD_map_range hr]
  · unfold annExportRows
    rw [getD_map_range hr, List.length_map]
    exact hlen

/-- Witness for C10 at the three-entry ordering `(tx_m, ty_m, tz_m)`. -/
theorem claim_C10_witness :
    Annotations.effectiveOrdering .YAW ["tx_m", "ty_m", "tz_m"] =
      yawFiltered ["tx_m", "ty_m", "tz_m"] ++ ["yaw"] ∧
    (Annotations.effectiveOrdering .YAW ["tx_m", "ty_m", "tz_m"])[6]? =
      none ∧
    ((annExportRows wCols wQty id 1 (Annotations.effectiveOrdering .YAW
      ["tx_m", "ty_m", "tz_m"])).getD 0 []).getD
        (yawFiltered ["tx_m", "ty_m", "tz_m"]).length default =
      id (wQty (quatAt wCols 0)) := by
  have h := claim_C10 wCols 1 (fun _ => rfl) wQty id
    ["tx_m", "ty_m", "tz_m"] (by decide) (by decide)
  exact ⟨h.1, h.2.1, (h.2.2.2.2 0 (by decide)).1⟩

/-! ### Claim C5 -/

/-- Whether an export outcome is a successful 2-D array. -/
def isOkRank2 : Except ExportError StackResult → Bool
  | .ok (.rank2 _) => true
  | _ => false

/-- C5 counterexample: on a well-formed one-record container, exporting the
derived 2-D `quaternion` attribute in `QUATERNION_WXYZ` mode succeeds —
`torch.stack` of one `(1, 4)` tensor along `dim=-1` yields a `(1, 4, 1)`
tensor — so the export result is 3-D, not of shape
`(N, len(effective_ordering)) = (1, 1)`, refuting the shape law as stated. -/
theorem claim_C5_counterexample :
    Annotations.as_tensor wQty id (Annotations.ofColumns wCols)
      ["quaternion"] OrientationMode.QUATERNION_WXYZ =
      Except.ok (StackResult.rank3
        [[[Scalar.num 1], [Scalar.num 1], [Scalar.num 1], [Scalar.num 1]]]) ∧
    isOkRank2 (Annotations.as_tensor wQty id (Annotations.ofColumns wCols)
      ["quaternion"] OrientationMode.QUATERNION_WXYZ) = false :=
  ⟨rfl, rfl⟩

/-- C5 (amended): for every well-formed container and every field ordering
whose effective entries all resolve to per-record 1-D columns (stored scalar
fields, or the synthetic `"yaw"` for annotations), the export succeeds with a
2-D array of shape `(N, len(effective_ordering))` — where the effective
ordering is the ordering itself for `Lidar` and for `Annotations` in
`QUATERNION_WXYZ` mode and the YAW-rewritten ordering in `YAW` mode.
Orderings that resolve the derived 2-D `quaternion` attribute are excluded:
they can succeed with a 3-D result. -/
theorem claim_C5_amended :
    (∀ (c : String → List Scalar) (N : Nat), (∀ n, (c n).length = N) →
      ∀ (qty : List Scalar → Scalar) (cast : Scalar → Scalar)
        (ordering : List String) (mode : OrientationMode),
      (∀ n ∈ Annotations.effectiveOrdering mode ordering,
        n ∈ Annotations.numericFieldNames ∨ n = "yaw") →
      Annotations.effectiveOrdering mode ordering ≠ [] →
      Annotations.as_tensor qty cast (Annotations.ofColumns c) ordering mode =
        .ok (.rank2 (annExportRows c qty cast N
          (Annotations.effectiveOrdering mode ordering))) ∧
      (annExportRows c qty cast N
        (Annotations.effectiveOrdering mode ordering)).length = N ∧
      ((annExportRows c qty cast N
        (Annotations.effectiveOrdering mode ordering)).all fun row =>
          row.length ==
            (Annotations.effectiveOrdering mode ordering).length) = true) ∧
    (∀ (c : String → List Scalar) (N : Nat), (∀ n, (c n).length = N) →
      ∀ (cast : Scalar → Scalar) (ordering : List String),
      (∀ n ∈ ordering, n ∈ Lidar.fieldNames) → ordering ≠ [] →
      Lidar.as_tensor cast (Lidar.ofColumns c) ordering =
        .ok (.rank2 (lidarExportRows c cast N ordering)) ∧
      (lidarExportRows c cast N ordering).length = N ∧
      ((lidarExportRows c cast N ordering).all fun row =>
        row.length == ordering.length) = true) := by
  constructor
  · intro c N hc qty cast ordering mode hres hne
    refine ⟨as_tensor_ofColumns c N hc qty cast ordering mode hres hne, ?_, ?_⟩
    · unfold annExportRows
      rw [List.length_map, List.length_range]
    · rw [List.all_eq_true]
      intro row hrow
      obtain ⟨r, -, rfl⟩ := List.mem_map.mp hrow
      simp
  · intro c N hc cast ordering hres hne
    refine ⟨lidar_as_tensor_ofColumns c N hc cast ordering hres hne, ?_, ?_⟩
    · unfold lidarExportRows
      rw [List.length_map, List.length_range]
    · rw [List.all_eq_true]
      intro row hrow
      obtain ⟨r, -, rfl⟩ := List.mem_map.mp hrow
      simp

/-- Witness for C5 (amended) at the default orderings with one record. -/
theorem claim_C5_amended_witness :
    (Annotations.as_tensor wQty id (Annotations.ofColumns wCols)
      DEFAULT_ANNOTATIONS_TENSOR_FIELDS .YAW =
      .ok (.rank2 (annExportRows wCols wQty id 1
        (Annotations.effectiveOrdering .YAW
          DEFAULT_ANNOTATIONS_TENSOR_FIELDS))) ∧
     (annExportRows wCols wQty id 1 (Annotations.effectiveOrdering .YAW
       DEFAULT_ANNOTATIONS_TENSOR_FIELDS)).length = 1 ∧
     ((annExportRows wCols wQty id 1 (Annotations.effectiveOrdering .YAW
       DEFAULT_ANNOTATIONS_TENSOR_FIELDS)).all fun row =>
         row.length == (Annotations.effectiveOrdering .YAW
           DEFAULT_ANNOTATIONS_TENSOR_FIELDS).length) = true) ∧
    (Lidar.as_tensor id (Lidar.ofColumns wCols) DEFAULT_LIDAR_TENSOR_FIELDS =
      .ok (.rank2 (lidarExportRows wCols id 1 DEFAULT_LIDAR_TENSOR_FIELDS)) ∧
     (lidarExportRows wCols id 1 DEFAULT_LIDAR_TENSOR_FIELDS).length = 1 ∧
     ((lidarExportRows wCols id 1 DEFAULT_LIDAR_TENSOR_FIELDS).all fun row =>
       row.length == DEFAULT_LIDAR_TENSOR_FIELDS.length) = true) :=
  ⟨claim_C5_amended.1 wCols 1 (fun _ => rfl) wQty id
      DEFAULT_ANNOTATIONS_TENSOR_FIELDS .YAW
      (augment_resolvable (by decide)) (pyInsert_ne_nil _ _ _),
    claim_C5_amended.2 wCols 1 (fun _ => rfl) id
      DEFAULT_LIDAR_TENSOR_FIELDS (by decide) (by decide)⟩

/-! ### Claim C6 -/

/-- The quaternion component names are modelled attributes. -/
theorem quat_subset_attr : ∀ m ∈ quatFieldNames, m ∈ Annotations.attrNames :=
  by decide

/-- C6: on any well-formed container, a field ordering containing a name that
is no attribute of the container (and is not the synthetic `"yaw"`) makes the
exporter fail with an attribute-lookup error rather than produce an array. -/
theorem claim_C6 :
    (∀ (c : String → List Scalar) (N : Nat), (∀ n, (c n).length = N) →
      ∀ (qty : List Scalar → Scalar) (cast : Scalar → Scalar)
        (ordering : List String) (mode : OrientationMode) (n : String),
      n ∈ ordering → n ∉ Annotations.attrNames → n ≠ "yaw" →
      isAttrErr (Annotations.as_tensor qty cast (Annotations.ofColumns c)
        ordering mode) = true) ∧
    (∀ (c : String → List Scalar) (cast : Scalar → Scalar)
        (ordering : List String) (n : String),
      n ∈ ordering → n ∉ Lidar.attrNames → n ≠ "yaw" →
      isAttrErr (Lidar.as_tensor cast (Lidar.ofColumns c) ordering) = true) := by
  constructor
  · intro c N hc qty cast ordering mode n hmem hattr hyaw
    have heff : n ∈ Annotations.effectiveOrdering mode ordering := by
      cases mode with
      | QUATERNION_WXYZ => exact hmem
      | YAW =>
        have hq : (!(quatFieldNames.contains n)) = true := by
          have : n ∉ quatFieldNames := fun hin =>
            hattr (quat_subset_attr n hin)
          simpa using this
        exact pyInsert_mem_of_mem
          (List.mem_filter.mpr ⟨hmem, hq⟩) 6 "yaw"
    obtain ⟨m, hbm, hres⟩ := resolveAll_attrError
      (Annotations.resolveField qty (Annotations.ofColumns c))
      (fun m => decide (m ∉ Annotations.attrNames ∧ m ≠ "yaw"))
      (Annotations.effectiveOrdering mode ordering)
      (by
        intro k hk hkf
        apply resolveField_ok_of_attr c N hc qty
        have := of_decide_eq_false hkf
        rcases Classical.em (k ∈ Annotations.attrNames) with h | h
        · exact Or.inl h
        · rcases Classical.em (k = "yaw") with h2 | h2
          · exact Or.inr h2
          · exact absurd ⟨h, h2⟩ this)
      (by
        intro k hk hkt
        obtain ⟨hk1, hk2⟩ := of_decide_eq_true hkt
        exact resolveField_attrError qty _ hk1 hk2)
      ⟨n, heff, decide_eq_true ⟨hattr, hyaw⟩⟩
    unfold Annotations.as_tensor
    rw [hres]
    rfl
  · intro c cast ordering n hmem hattr hyaw
    obtain ⟨m, hbm, hres⟩ := resolveAll_attrError
      ((Lidar.ofColumns c).resolveField)
      (fun m => decide (m ∉ Lidar.attrNames))
      ordering
      (by
        intro k hk hkf
        apply lidarResolve_ok_of_attr c
        have := of_decide_eq_false hkf
        rcases Classical.em (k ∈ Lidar.attrNames) with h | h
        · exact h
        · exact absurd h this)
      (by
        intro k hk hkt
        exact lidarResolveField_attrError _ (of_decide_eq_true hkt))
      ⟨n, hmem, decide_eq_true hattr⟩
    unfold Lidar.as_tensor
    rw [hres]
    rfl

/-- Witness for C6: the unknown name `"bogus"` in both exporters. -/
theorem claim_C6_witness :
    isAttrErr (Annotations.as_tensor wQty id (Annotations.ofColumns wCols)
      ["tx_m", "bogus"] .YAW) = true ∧
    isAttrErr (Lidar.as_tensor id (Lidar.ofColumns wCols)
      ["x", "bogus"]) = true :=
  ⟨claim_C6.1 wCols 1 (fun _ => rfl) wQty id ["tx_m", "bogus"] .YAW "bogus"
      (by decide) (by decide) (by decide),
    claim_C6.2 wCols id ["x", "bogus"] "bogus"
      (by decide) (by decide) (by decide)⟩

/-! ### Claim C8 -/

/-- `pyInsert` places the new element at the clamped insertion position. -/
theorem pyInsert_getElem_insertPos (l : List α) (i : Nat) (a : α) :
    (pyInsert l i a)[min i l.length]? = some a := by
  unfold pyInsert
  have hlen : (l.take i).length = min i l.length := List.length_take i l
  have happ := getElem?_append_cons (l.take i) (l.drop i) a
  rw [hlen] at happ
  exact happ

/-- C8: exporting in `QUATERNION_WXYZ` mode and deriving yaw from the exported
quaternion columns by the quaternion-to-yaw conversion agrees exactly with the
yaw column of the `YAW`-mode export (exact in this embedding, whose scalars
carry no rounding; the dtype cast is the identity, matching "up to the
conversion's own numeric tolerance"). -/
theorem claim_C8 (c : String → List Scalar) (N : Nat)
    (hc : ∀ n, (c n).length = N) (qty : List Scalar → Scalar)
    (ordering : List String)
    (hord : ∀ n ∈ ordering, n ∈ Annotations.numericFieldNames)
    (hone : ordering ≠ []) (iw ix iy iz : Nat)
    (hw : ordering[iw]? = some "qw") (hx : ordering[ix]? = some "qx")
    (hy : ordering[iy]? = some "qy") (hz : ordering[iz]? = some "qz") :
    Annotations.as_tensor qty id (Annotations.ofColumns c) ordering
      .QUATERNION_WXYZ = .ok (.rank2 (annExportRows c qty id N ordering)) ∧
    Annotations.as_tensor qty id (Annotations.ofColumns c) ordering .YAW =
      .ok (.rank2 (annExportRows c qty id N
        (Annotations.effectiveOrdering .YAW ordering))) ∧
    ∀ r, r < N →
      ((annExportRows c qty id N (Annotations.effectiveOrdering .YAW
        ordering)).getD r []).getD (min 6 (yawFiltered ordering).length)
          default =
      qty [((annExportRows c qty id N ordering).getD r []).getD iw default,
           ((annExportRows c qty id N ordering).getD r []).getD ix default,
           ((annExportRows c qty id N ordering).getD r []).getD iy default,
           ((annExportRows c qty id N ordering).getD r []).getD iz default] := by
  refine ⟨as_tensor_ofColumns c N hc qty id ordering .QUATERNION_WXYZ
      (fun n hn => Or.inl (hord n hn)) hone,
    as_tensor_ofColumns c N hc qty id ordering .YAW
      (augment_resolvable hord) (pyInsert_ne_nil _ _ _), ?_⟩
  intro r hr
  have hrowY : (annExportRows c qty id N
      (Annotations.effectiveOrdering .YAW ordering)).getD r [] =
      (Annotations.effectiveOrdering .YAW ordering).map
        fun n => id ((annCol c qty N n).getD r default) := by
    unfold annExportRows
    exact getD_map_range hr _
  have hrowQ : (annExportRows c qty id N ordering).getD r [] =
      ordering.map fun n => id ((annCol c qty N n).getD r default) := by
    unfold annExportRows
    exact getD_map_range hr _
  have hposy : (Annotations.effectiveOrdering .YAW ordering)[
      min 6 (yawFiltered ordering).length]? = some "yaw" :=
    pyInsert_getElem_insertPos (yawFiltered ordering) 6 "yaw"
  rw [hrowY, hrowQ, getD_map_of_getElem? _ hposy,
    getD_map_of_getElem? _ hw, getD_map_of_getElem? _ hx,
    getD_map_of_getElem? _ hy, getD_map_of_getElem? _ hz]
  show id ((annCol c qty N "yaw").getD r default) = _
  have hyw : annCol c qty N "yaw" =
      (List.range N).map fun i => qty (quatAt c i) := rfl
  rw [id_eq, hyw, getD_map_range hr]
  rfl

/-- Witness for C8 at the default ordering (quaternion at indices 6..9). -/
theorem claim_C8_witness :
    Annotations.as_tensor wQty id (Annotations.ofColumns wCols)
      DEFAULT_ANNOTATIONS_TENSOR_FIELDS .QUATERNION_WXYZ =
      .ok (.rank2 (annExportRows wCols wQty id 1
        DEFAULT_ANNOTATIONS_TENSOR_FIELDS)) ∧
    ((annExportRows wCols wQty id 1 (Annotations.effectiveOrdering .YAW
      DEFAULT_ANNOTATIONS_TENSOR_FIELDS)).getD 0 []).getD
        (min 6 (yawFiltered DEFAULT_ANNOTATIONS_TENSOR_FIELDS).length)
        default =
      wQty [((annExportRows wCols wQty id 1
          DEFAULT_ANNOTATIONS_TENSOR_FIELDS).getD 0 []).getD 6 default,
        ((annExportRows wCols wQty id 1
          DEFAULT_ANNOTATIONS_TENSOR_FIELDS).getD 0 []).getD 7 default,
        ((annExportRows wCols wQty id 1
          DEFAULT_ANNOTATIONS_TENSOR_FIELDS).getD 0 []).getD 8 default,
        ((annExportRows wCols wQty id 1
          DEFAULT_ANNOTATIONS_TENSOR_FIELDS).getD 0 []).getD 9 default] := by
  have h := claim_C8 wCols 1 (fun _ => rfl) wQty
    DEFAULT_ANNOTATIONS_TENSOR_FIELDS (by decide) (by decide)
    6 7 8 9 (by decide) (by decide) (by decide) (by decide)
  exact ⟨h.1, h.2.2 0 (by decide)⟩

/-! ### Claim C9 -/

/-- C9: the exporters are deterministic — equal containers, orderings,
orientation modes and dtype casts produce equal output arrays; the embedding
is a pure function of these inputs with no hidden state. -/
theorem claim_C9 :
    (∀ (qty qty2 : List Scalar → Scalar) (cast cast2 : Scalar → Scalar)
        (a a2 : Annotations) (ordering ordering2 : List String)
        (mode mode2 : OrientationMode),
      qty = qty2 → cast = cast2 → a = a2 → ordering = ordering2 →
      mode = mode2 →
      Annotations.as_tensor qty cast a ordering mode =
        Annotations.as_tensor qty2 cast2 a2 ordering2 mode2) ∧
    (∀ (cast cast2 : Scalar → Scalar) (l l2 : Lidar)
        (ordering ordering2 : List String),
      cast = cast2 → l = l2 → ordering = ordering2 →
      Lidar.as_tensor cast l ordering =
        Lidar.as_tensor cast2 l2 ordering2) := by
  constructor
  · intro qty qty2 cast cast2 a a2 ordering ordering2 mode mode2 h1 h2 h3 h4 h5
    subst h1
    subst h2
    subst h3
    subst h4
    subst h5
    rfl
  · intro cast cast2 l l2 ordering ordering2 h1 h2 h3
    subst h1
    subst h2
    subst h3
    rfl

/-- Witness for C9 at concrete repeated calls. -/
theorem claim_C9_witness :
    Annotations.as_tensor wQty id annA0 DEFAULT_ANNOTATIONS_TENSOR_FIELDS
        .YAW =
      Annotations.as_tensor wQty id annA0 DEFAULT_ANNOTATIONS_TENSOR_FIELDS
        .YAW ∧
    Lidar.as_tensor id lidarL0 DEFAULT_LIDAR_TENSOR_FIELDS =
      Lidar.as_tensor id lidarL0 DEFAULT_LIDAR_TENSOR_FIELDS :=
  ⟨claim_C9.1 wQty wQty id id annA0 annA0 DEFAULT_ANNOTATIONS_TENSOR_FIELDS
      DEFAULT_ANNOTATIONS_TENSOR_FIELDS .YAW .YAW rfl rfl rfl rfl rfl,
    claim_C9.2 id id lidarL0 lidarL0 DEFAULT_LIDAR_TENSOR_FIELDS
      DEFAULT_LIDAR_TENSOR_FIELDS rfl rfl rfl⟩

/-! ### Claims C3 and C4 -/

/-- Evaluation of the pose query once the filtered selections are single-row:
squeeze produces the row vectors and the transform is built directly from
them. -/
theorem query_SE3_eval (qtm : List Scalar → List (List Scalar))
    (poses : DataFrame) (t : Scalar) (P : DataFrame)
    (hfil : poses.filterEq "timestamp_ns" t = some P)
    (q0 q1 q2 q3 t0 t1 t2 : Scalar)
    (hq : P.selectCols? ["qw", "qx", "qy", "qz"] =
      some [[q0], [q1], [q2], [q3]])
    (ht : P.selectCols? ["tx_m", "ty_m", "tz_m"] = some [[t0], [t1], [t2]]) :
    query_SE3 qtm poses t = .ok ⟨qtm [q0, q1, q2, q3], [t0, t1, t2]⟩ := by
  unfold query_SE3
  split
  · rename_i hnone
    rw [hfil] at hnone
    cases hnone
  · rename_i pose hsome
    rw [hfil] at hsome
    cases hsome
    split
    · rename_i qcols tcols hq2 ht2
      rw [hq] at hq2
      rw [ht] at ht2
      cases hq2
      cases ht2
      rfl
    · rename_i hcontra
      exact absurd (hcontra _ _ hq ht) (fun h => h)

/-- C3: on a poses table containing exactly one row whose `timestamp_ns`
equals the query timestamp, `query_SE3` returns the transform whose rotation
is the collaborator's matrix of that row's `(qw, qx, qy, qz)` and whose
translation is that row's `(tx_m, ty_m, tz_m)` — identical to direct
construction from the same quaternion and translation, for every rotation
collaborator. -/
theorem claim_C3 (quat_to_mat : List Scalar → List (List Scalar))
    (df : DataFrame) (sT sW sX sY sZ sTx sTy sTz : Series)
    (pre post : List Scalar) (t : Scalar)
    (hT : df.col? "timestamp_ns" = some sT)
    (hW : df.col? "qw" = some sW) (hX : df.col? "qx" = some sX)
    (hY : df.col? "qy" = some sY) (hZ : df.col? "qz" = some sZ)
    (hTx : df.col? "tx_m" = some sTx) (hTy : df.col? "ty_m" = some sTy)
    (hTz : df.col? "tz_m" = some sTz)
    (hsplit : sT.values = pre ++ t :: post)
    (hpre : ∀ x ∈ pre, (x == t) = false)
    (hpost : ∀ x ∈ post, (x == t) = false)
    (hlW : sW.values.length = sT.values.length)
    (hlX : sX.values.length = sT.values.length)
    (hlY : sY.values.length = sT.values.length)
    (hlZ : sZ.values.length = sT.values.length)
    (hlTx : sTx.values.length = sT.values.length)
    (hlTy : sTy.values.length = sT.values.length)
    (hlTz : sTz.values.length = sT.values.length) :
    query_SE3 quat_to_mat df t = .ok
      ⟨quat_to_mat [sW.values.getD pre.length default,
        sX.values.getD pre.length default,
        sY.values.getD pre.length default,
        sZ.values.getD pre.length default],
       [sTx.values.getD pre.length default,
        sTy.values.getD pre.length default,
        sTz.values.getD pre.length default]⟩ := by
  have hfil : df.filterEq "timestamp_ns" t = some
      ⟨df.cols.map fun p => (p.1,
        ⟨p.2.dtype, keepIdx (sT.values.map fun x => x == t) p.2.values⟩)⟩ := by
    unfold DataFrame.filterEq
    rw [hT]
    rfl
  have hcol : ∀ (m : String) (s : Series), df.col? m = some s →
      (DataFrame.mk (df.cols.map fun p => (p.1,
        ⟨p.2.dtype, keepIdx (sT.values.map fun x => x == t)
          p.2.values⟩))).col? m =
      some ⟨s.dtype, keepIdx (sT.values.map fun x => x == t) s.values⟩ := by
    intro m s hs
    show (df.cols.map fun p => (p.1,
      (⟨p.2.dtype, keepIdx (sT.values.map fun x => x == t) p.2.values⟩ :
        Series))).lookup m = _
    rw [lookup_map_val (fun s2 => (⟨s2.dtype,
      keepIdx (sT.values.map fun x => x == t) s2.values⟩ : Series)) m df.cols]
    rw [show df.cols.lookup m = some s from hs]
    rfl
  have hkeep : ∀ vs : List Scalar, vs.length = sT.values.length →
      keepIdx (sT.values.map fun x => x == t) vs =
        [vs.getD pre.length default] := by
    intro vs hvl
    rw [hsplit]
    exact keepIdx_single t pre post hpre hpost vs
      (by rw [hvl, hsplit, List.length_append, List.length_cons]; omega)
  have hW2 := hcol "qw" sW hW
  have hX2 := hcol "qx" sX hX
  have hY2 := hcol "qy" sY hY
  have hZ2 := hcol "qz" sZ hZ
  have hTx2 := hcol "tx_m" sTx hTx
  have hTy2 := hcol "ty_m" sTy hTy
  have hTz2 := hcol "tz_m" sTz hTz
  rw [hkeep sW.values hlW] at hW2
  rw [hkeep sX.values hlX] at hX2
  rw [hkeep sY.values hlY] at hY2
  rw [hkeep sZ.values hlZ] at hZ2
  rw [hkeep sTx.values hlTx] at hTx2
  rw [hkeep sTy.values hlTy] at hTy2
  rw [hkeep sTz.values hlTz] at hTz2
  apply query_SE3_eval quat_to_mat df t _ hfil
  · unfold DataFrame.selectCols?
    simp only [List.mapM_cons, List.mapM_nil, hW2, hX2, hY2, hZ2,
      Option.map_some, Option.bind_eq_bind, Option.some_bind]
    rfl
  · unfold DataFrame.selectCols?
    simp only [List.mapM_cons, List.mapM_nil, hTx2, hTy2, hTz2,
      Option.map_some, Option.bind_eq_bind, Option.some_bind]
    rfl

/-- A one-row poses table at timestamp 1. -/
def posesTable0 : DataFrame :=
  ⟨[("timestamp_ns", ⟨.int64, [.num 1]⟩), ("qw", ⟨.float64, [.num 1]⟩),
    ("qx", ⟨.float64, [.num 0]⟩), ("qy", ⟨.float64, [.num 0]⟩),
    ("qz", ⟨.float64, [.num 0]⟩), ("tx_m", ⟨.float64, [.num 5]⟩),
    ("ty_m", ⟨.float64, [.num 6]⟩), ("tz_m", ⟨.float64, [.num 7]⟩)]⟩

/-- Concrete rotation-collaborator stand-in used by concrete witnesses. -/
def wQtm : List Scalar → List (List Scalar) := fun q => [q]

/-- Witness for C3 at the one-row poses table. -/
theorem claim_C3_witness :
    query_SE3 wQtm posesTable0 (Scalar.num 1) = .ok
      ⟨wQtm [Scalar.num 1, Scalar.num 0, Scalar.num 0, Scalar.num 0],
       [Scalar.num 5, Scalar.num 6, Scalar.num 7]⟩ :=
  claim_C3 wQtm posesTable0 ⟨.int64, [.num 1]⟩ ⟨.float64, [.num 1]⟩
    ⟨.float64, [.num 0]⟩ ⟨.float64, [.num 0]⟩ ⟨.float64, [.num 0]⟩
    ⟨.float64, [.num 5]⟩ ⟨.float64, [.num 6]⟩ ⟨.float64, [.num 7]⟩
    [] [] (Scalar.num 1) rfl rfl rfl rfl rfl rfl rfl rfl rfl
    (by simp) (by simp) rfl rfl rfl rfl rfl rfl rfl

/-- C4, code evaluated at the failing input: querying timestamp 3 against a
table whose only row is at timestamp 1 matches zero rows; the source raises no
`NotFoundError` (no such error exists in it) — the empty selection flows into
the squeeze and rotation-collaborator chain, surfacing as a shape failure. -/
theorem claim_C4_code_bug :
    query_SE3 wQtm posesTable0 (Scalar.num 3) =
      .error QueryError.shapeError := rfl
